import Mathlib

/-!
Verification of `get_employment.py` (jakekara/bls-employment).

Shallow embedding of the BLS employment downloader:
* identifier mapping (`fips_to_id`, `id_to_fips`),
* the table assembler (`download_employment_data`),
* the chunked fetcher (`download_all_employment_data`),
together with proofs and refutations of the specification's claims.

Python strings are modelled as Lean `String`, Python ints as `Int`,
Python `None` as `Option.none`, and a raised exception as `Except.error`
carrying the exception's description.
-/

namespace BLS

/-- Python `str.zfill(width)`: left-pad with `'0'` up to `width`,
keeping a leading sign character in front of the padding.  Never truncates. -/
def zfill (s : String) (width : Nat) : String :=
  if width ≤ s.length then s
  else
    match s.data with
    | c :: cs =>
      if c = '+' ∨ c = '-' then
        String.mk (c :: List.replicate (width - s.length) '0' ++ cs)
      else
        String.mk (List.replicate (width - s.length) '0' ++ s.data)
    | [] => String.mk (List.replicate width '0')

/-- Source line 16: `return "SMS" + str(st).zfill(2) + "000000000000001"`.
The region code is taken already stringified (`str` on a Python string is
the identity). -/
def fips_to_id (st : String) : String :=
  "SMS" ++ zfill st 2 ++ "000000000000001"

/-- The constant 15-character suffix of a series id, as a character list. -/
def sfxChars : List Char := "000000000000001".data

/-- Source lines 23–28: `re.match("SMS([0-9]{2})000000000000001", series_id)`,
returning `match.group(1)` on success and `None` otherwise.
`re.match` anchors only at the *start* of the string, so characters after
the matched pattern are ignored. -/
def id_to_fips (series_id : String) : Option String :=
  match series_id.data with
  | 'S' :: 'M' :: 'S' :: d1 :: d2 :: rest =>
    if d1.isDigit ∧ d2.isDigit ∧ sfxChars.isPrefixOf rest then
      some (String.mk [d1, d2])
    else none
  | _ => none

/-! ## Identifier-mapping facts (claims C5, C7, C9) -/

/-- The exact series-identifier format described by the spec: literal prefix
`"SMS"`, exactly two digits, literal suffix `"000000000000001"`, and nothing
else.  (Spec-side definition for claim C5, following the spec's words.) -/
def exactSeriesFormat (s : String) : Bool :=
  match s.data with
  | 'S' :: 'M' :: 'S' :: d1 :: d2 :: rest =>
    d1.isDigit && d2.isDigit && rest == sfxChars
  | _ => false

/-- C5 counterexample: `"SMS09000000000000001X"` does **not** have the exact
format (it has a trailing character), yet `id_to_fips` returns `some "09"`
rather than the absent value, because `re.match` only anchors at the start. -/
theorem id_to_fips_trailing_garbage_counterexample :
    exactSeriesFormat "SMS09000000000000001X" = false ∧
    id_to_fips "SMS09000000000000001X" = some "09" := by
  decide

/-- C5 amended: `id_to_fips` returns the absent value exactly for the strings
that do not *begin* with the pattern `SMS`, two digits, `000000000000001`;
characters after that 20-character prefix are ignored (Python's `re.match`
anchors only at the start).  Being a total Lean function, it never throws. -/
theorem id_to_fips_none_iff (s : String) :
    id_to_fips s = none ↔
      ¬ ∃ d1 d2 rest, s.data = 'S' :: 'M' :: 'S' :: d1 :: d2 :: rest ∧
        d1.isDigit ∧ d2.isDigit ∧ sfxChars.isPrefixOf rest := by
  unfold id_to_fips
  split
  · rename_i d1 d2 rest heq
    split
    · rename_i hP
      refine iff_of_false (by simp) ?_
      intro hno
      exact hno ⟨d1, d2, rest, heq, hP.1, hP.2.1, hP.2.2⟩
    · rename_i hP
      refine iff_of_true rfl ?_
      rintro ⟨e1, e2, r, hseq, hd1, hd2, hpre⟩
      rw [heq] at hseq
      simp only [List.cons.injEq, true_and] at hseq
      obtain ⟨h1, h2, h3⟩ := hseq
      exact hP ⟨h1 ▸ hd1, h2 ▸ hd2, h3 ▸ hpre⟩
  · rename_i hcatch
    refine iff_of_true rfl ?_
    rintro ⟨d1, d2, rest, hseq, -, -, -⟩
    exact hcatch d1 d2 rest hseq

/-- C5 amended, witness at a concrete input. -/
theorem id_to_fips_none_iff_witness :
    ¬ ∃ d1 d2 rest, ("XYZ" : String).data = 'S' :: 'M' :: 'S' :: d1 :: d2 :: rest ∧
      d1.isDigit ∧ d2.isDigit ∧ sfxChars.isPrefixOf rest :=
  (id_to_fips_none_iff "XYZ").mp rfl

/-- Python `str.zfill` pads but never truncates: the result's length is
`max width (length of the input)`. -/
theorem zfill_length (s : String) (width : Nat) :
    (zfill s width).length = max width s.length := by
  have hlen : s.length = s.data.length := rfl
  unfold zfill
  split
  · omega
  · rename_i hlt
    split
    · rename_i c cs heq
      have hcs : s.data.length = cs.length + 1 := by rw [heq]; simp
      split
      · show (c :: (List.replicate (width - s.length) '0' ++ cs)).length = _
        simp only [List.length_cons, List.length_append, List.length_replicate]
        omega
      · show (List.replicate (width - s.length) '0' ++ s.data).length = _
        simp only [List.length_append, List.length_replicate]
        omega
    · rename_i heq
      have h0 : s.data.length = 0 := by rw [heq]; rfl
      show (List.replicate width '0').length = _
      simp only [List.length_replicate]
      omega

/-- C9 counterexample: for the three-character input `"123"`, the series id
is `"SMS123000000000000001"` — the embedded code segment keeps all three
characters (21 characters total, not the 20 the claim's
"zero-padded/truncated to exactly 2 digits" would force). -/
theorem fips_to_id_no_truncation_counterexample :
    fips_to_id "123" = "SMS123000000000000001" ∧
    (fips_to_id "123").length ≠ 20 := by
  decide

/-- C9 amended: `fips_to_id` is total with no failure mode; every input is
accepted and the result is the literal prefix `"SMS"`, then the input
zero-filled to width 2 (padded when shorter, kept whole — never truncated —
when longer), then the literal suffix; so the embedded code segment has
exactly `max 2 (length of the input)` characters. -/
theorem fips_to_id_shape (st : String) :
    ∃ mid, fips_to_id st = "SMS" ++ mid ++ "000000000000001" ∧
      mid.length = max 2 st.length :=
  ⟨zfill st 2, rfl, zfill_length st 2⟩

/-- C9 amended, witness at a one-character input (padded to two). -/
theorem fips_to_id_shape_witness :
    ∃ mid, fips_to_id "7" = "SMS" ++ mid ++ "000000000000001" ∧
      mid.length = max 2 ("7" : String).length :=
  fips_to_id_shape "7"

/-- C7 confirmed: for every valid 2-digit region code (a string of exactly two
decimal digits), converting it to a series identifier and parsing the
identifier back recovers the original code. -/
theorem id_to_fips_roundtrip (c : String) (hlen : c.length = 2)
    (hdig : ∀ ch ∈ c.data, ch.isDigit) :
    id_to_fips (fips_to_id c) = some c := by
  obtain ⟨c1, c2, hd⟩ : ∃ c1 c2, c.data = [c1, c2] :=
    List.length_eq_two.mp hlen
  have hz : zfill c 2 = c := by
    unfold zfill
    rw [if_pos (by omega)]
  have hdata2 : (fips_to_id c).data = 'S' :: 'M' :: 'S' :: c1 :: c2 :: sfxChars := by
    unfold fips_to_id
    rw [hz]
    rw [String.data_append, String.data_append, hd]
    rfl
  unfold id_to_fips
  rw [hdata2]
  have h1 : c1.isDigit := hdig c1 (by rw [hd]; simp)
  have h2 : c2.isDigit := hdig c2 (by rw [hd]; simp)
  show (if c1.isDigit ∧ c2.isDigit ∧ sfxChars.isPrefixOf sfxChars then
      some (String.mk [c1, c2]) else none) = some c
  rw [if_pos ⟨h1, h2, by decide⟩]
  rw [← hd]

/-- C7 witness at the concrete code `"09"`. -/
theorem id_to_fips_roundtrip_witness :
    id_to_fips (fips_to_id "09") = some "09" :=
  id_to_fips_roundtrip "09" (by decide) (by decide)

/-! ## Period-key normalization (claim C10) -/

/-- Replace, left to right, every non-overlapping occurrence of the nonempty
pattern `o :: os` in a character list by `new` (the recursive core of
Python's `str.replace`). -/
def replaceAux (l : List Char) (o : Char) (os new : List Char) : List Char :=
  match l with
  | [] => []
  | c :: cs =>
    if (o :: os).isPrefixOf (c :: cs) then
      new ++ replaceAux ((c :: cs).drop (o :: os).length) o os new
    else
      c :: replaceAux cs o os new
termination_by l.length
decreasing_by
  · simp only [List.drop, List.length_cons, List.length_drop]
    omega
  · simp

/-- Python `str.replace` on character lists.  An empty pattern inserts the
replacement before every character and once at the end, as Python does. -/
def replaceChars (l old new : List Char) : List Char :=
  match old with
  | [] => new ++ l.flatMap (fun c => c :: new)
  | o :: os => replaceAux l o os new

/-- Python `s.replace(old, new)`. -/
def pyReplace (s old new : String) : String :=
  String.mk (replaceChars s.data old.data new.data)

/-- Python `sep.join(parts)`. -/
def pyJoin (sep : String) : List String → String
  | [] => ""
  | [x] => x
  | x :: xs => x ++ sep ++ pyJoin sep xs

/-- Source line 72:
`year_period = "-".join([item['year'], item['period'].replace("M","")])`. -/
def yearPeriodKey (year period : String) : String :=
  pyJoin "-" [year, pyReplace period "M" ""]

/-- Replacing single-character pattern `'M'` by the empty string deletes
every `'M'`, i.e. filters the character list. -/
theorem replaceAux_M_filter (l : List Char) :
    replaceAux l 'M' [] [] = l.filter (fun c => c ≠ 'M') := by
  induction l with
  | nil => rw [replaceAux]; rfl
  | cons c cs ih =>
    rw [replaceAux]
    by_cases hc : c = 'M'
    · rw [if_pos (by simp [hc, List.isPrefixOf])]
      simp [hc, ih]
    · rw [if_neg (by simp [List.isPrefixOf]; exact fun h => hc h.symm)]
      simp [hc, ih]

/-- C10 confirmed: the table assembler's period key is the year, a hyphen,
and the raw period string with **all** occurrences of `'M'` deleted —
`str.replace` is not limited to a leading prefix character. -/
theorem yearPeriodKey_removes_all_M (year period : String) :
    yearPeriodKey year period =
      year ++ "-" ++ String.mk (period.data.filter (fun c => c ≠ 'M')) := by
  show year ++ "-" ++ pyReplace period "M" "" = _
  rw [pyReplace]
  show year ++ "-" ++ String.mk (replaceAux period.data 'M' [] []) = _
  rw [replaceAux_M_filter]

/-- C10 witness at the concrete observation key `("2008", "M01")`. -/
theorem yearPeriodKey_removes_all_M_witness :
    yearPeriodKey "2008" "M01" =
      "2008" ++ "-" ++ String.mk (("M01" : String).data.filter (fun c => c ≠ 'M')) :=
  yearPeriodKey_removes_all_M "2008" "M01"

/-! ## Reference data: `us.states.STATES`

The `us` package's `STATES` list: the 50 states in alphabetical order, each
with its FIPS code and postal abbreviation.  `us.states.lookup` on a
two-digit string is a FIPS lookup that returns `None` when nothing matches.
-/

/-- Pairs `(fips, abbr)` for the 50 states, in the order of `us.states.STATES`. -/
def usStates : List (String × String) :=
  [("01", "AL"), ("02", "AK"), ("04", "AZ"), ("05", "AR"), ("06", "CA"),
   ("08", "CO"), ("09", "CT"), ("10", "DE"), ("12", "FL"), ("13", "GA"),
   ("15", "HI"), ("16", "ID"), ("17", "IL"), ("18", "IN"), ("19", "IA"),
   ("20", "KS"), ("21", "KY"), ("22", "LA"), ("23", "ME"), ("24", "MD"),
   ("25", "MA"), ("26", "MI"), ("27", "MN"), ("28", "MS"), ("29", "MO"),
   ("30", "MT"), ("31", "NE"), ("32", "NV"), ("33", "NH"), ("34", "NJ"),
   ("35", "NM"), ("36", "NY"), ("37", "NC"), ("38", "ND"), ("39", "OH"),
   ("40", "OK"), ("41", "OR"), ("42", "PA"), ("44", "RI"), ("45", "SC"),
   ("46", "SD"), ("47", "TN"), ("48", "TX"), ("49", "UT"), ("50", "VT"),
   ("51", "VA"), ("53", "WA"), ("54", "WV"), ("55", "WI"), ("56", "WY")]

/-- Source line 96: `fips_codes = [x.fips for x in us.states.STATES]`. -/
def usFipsCodes : List String := usStates.map (fun p => p.1)

/-- Models `us.states.lookup(fips).abbr` when the lookup succeeds; `none` models the
`us` package returning `None` for an unrecognized code. -/
def usLookup (fips : String) : Option String :=
  (usStates.find? (fun p => p.1 == fips)).map (fun p => p.2)

/-! ## Table model

A pandas `DataFrame` built as `pd.DataFrame(rows).transpose()` from the
assembler's `rows` dict is indexed by series id with one column per key of
the per-series dicts, in insertion order.  We model it directly as the
insertion-ordered association `series id ↦ (column ↦ value)`. -/

/-- One row: insertion-ordered `column ↦ value` entries
(`"state"`, `"fips"`, then one column per period key). -/
abbrev Row := List (String × String)

/-- A result table: insertion-ordered `series id ↦ row`. -/
abbrev Table := List (String × Row)

/-- Python dict assignment `row[col] = v`: replace in place when the key
exists, append otherwise. -/
def setCol (row : Row) (col v : String) : Row :=
  if row.any (fun p => p.1 == col) then
    row.map (fun p => if p.1 == col then (p.1, v) else p)
  else row ++ [(col, v)]

/-- Python `series_id in rows` for the assembler's `rows` dict. -/
def hasKey (rows : Table) (k : String) : Bool :=
  rows.any (fun p => p.1 == k)

/-- Update the row stored under key `k` (which keeps its position). -/
def updateRow (rows : Table) (k : String) (f : Row → Row) : Table :=
  rows.map (fun p => if p.1 == k then (p.1, f p.2) else p)

/-! ## Table assembler: `download_employment_data` (lines 59–85)

The HTTP exchange (lines 46–59) is external; the assembler is modelled on
the already-decoded `json_data['Results']` object.  A raised Python
exception is modelled as `Except.error` with the exception's name. -/

/-- One decoded observation `{year, period, value}`. -/
structure DataItem where
  year : String
  period : String
  value : String
deriving DecidableEq, Repr

/-- One decoded series: its id and its observation list. -/
structure SeriesEntry where
  seriesID : String
  data : List DataItem
deriving DecidableEq, Repr

/-- The decoded `Results` object: `series` is `none` when the key
`'series'` is missing from it. -/
structure Response where
  series : Option (List SeriesEntry)
deriving DecidableEq, Repr

/-- Lines 68–83, the inner loop over `series['data']`.  For each item the
code recomputes `fips = id_to_fips(series_id)` and
`st_abbr = us.states.lookup(fips).abbr`; `us.states.lookup(None)` raises a
`TypeError`, and `.abbr` on a failed lookup raises an `AttributeError`. -/
def processItems (series_id : String) (items : List DataItem) (rows : Table) :
    Except String Table :=
  match items with
  | [] => .ok rows
  | item :: rest =>
    match id_to_fips series_id with
    | none => .error "TypeError"
    | some fips =>
      match usLookup fips with
      | none => .error "AttributeError"
      | some st_abbr =>
        let year_period := yearPeriodKey item.year item.period
        let rows' :=
          if hasKey rows series_id then rows
          else rows ++ [(series_id, [("state", st_abbr), ("fips", fips)])]
        processItems series_id rest
          (updateRow rows' series_id (fun r => setCol r year_period item.value))

/-- Lines 66–83, the outer loop over `json_data['Results']['series']`. -/
def processSeries (entries : List SeriesEntry) (rows : Table) :
    Except String Table :=
  match entries with
  | [] => .ok rows
  | se :: rest => do
    let rows' ← processItems se.seriesID se.data rows
    processSeries rest rows'

/-- Lines 59–85: return `None` when `'series' not in json_data['Results']`,
otherwise build `rows` and return `pd.DataFrame(rows).transpose()` (in this
model, `rows` itself, keyed by series id). -/
def download_employment_data (resp : Response) : Except String (Option Table) :=
  match resp.series with
  | none => .ok none
  | some entries => (processSeries entries []).map (fun rows => some rows)

/-! ## Assembler result shape (claim C8) -/

/-- Lemma: `processItems` succeeds when the series id maps to a known region
(or the item list is empty, in which case the lookup is never reached). -/
theorem processItems_ok (series_id : String) (items : List DataItem) (rows : Table)
    (h : items = [] ∨ ∃ fips abbr, id_to_fips series_id = some fips ∧
      usLookup fips = some abbr) :
    ∃ r', processItems series_id items rows = .ok r' := by
  induction items generalizing rows with
  | nil => exact ⟨rows, rfl⟩
  | cons item rest ih =>
    obtain ⟨fips, abbr, hf, ha⟩ : ∃ fips abbr, id_to_fips series_id = some fips ∧
        usLookup fips = some abbr := by
      rcases h with h | h
      · cases h
      · exact h
    rw [processItems]
    simp only [hf, ha]
    exact ih _ (Or.inr ⟨fips, abbr, hf, ha⟩)

/-- Lemma: `processSeries` succeeds when every series with at least one observation
carries an id that maps to a known region. -/
theorem processSeries_ok (entries : List SeriesEntry) (rows : Table)
    (h : ∀ se ∈ entries, se.data = [] ∨ ∃ fips abbr,
      id_to_fips se.seriesID = some fips ∧ usLookup fips = some abbr) :
    ∃ r', processSeries entries rows = .ok r' := by
  induction entries generalizing rows with
  | nil => exact ⟨rows, rfl⟩
  | cons se rest ih =>
    obtain ⟨r1, hr1⟩ := processItems_ok se.seriesID se.data rows
      (h se (List.mem_cons_self se rest))
    obtain ⟨r2, hr2⟩ := ih r1 (fun x hx => h x (List.mem_cons_of_mem se hx))
    refine ⟨r2, ?_⟩
    rw [processSeries, hr1]
    exact hr2

/-- C8 counterexample: a response whose `series` list **is** present but whose
only series has an identifier that does not parse (so
`us.states.lookup(None)` raises).  The assembler raises instead of
returning a table, refuting "when the series list is present it returns a
table". -/
theorem download_employment_data_raises_counterexample :
    (Response.mk (some [⟨"BAD", [⟨"2008", "M01", "100"⟩]⟩])).series ≠ none ∧
    download_employment_data ⟨some [⟨"BAD", [⟨"2008", "M01", "100"⟩]⟩]⟩ =
      .error "TypeError" :=
  ⟨by simp, rfl⟩

/-- C8 amended: the assembler returns the absent value (rather than raising
or returning an empty table) **exactly** when the decoded `Results` object
contains no `series` list; when the list is present it returns a table
provided every series with at least one observation has an identifier
mapping to a known region — otherwise the region lookup raises. -/
theorem download_employment_data_none_iff (resp : Response) :
    (download_employment_data resp = .ok none ↔ resp.series = none) ∧
    (∀ entries, resp.series = some entries →
      (∀ se ∈ entries, se.data = [] ∨ ∃ fips abbr,
        id_to_fips se.seriesID = some fips ∧ usLookup fips = some abbr) →
      ∃ t, download_employment_data resp = .ok (some t)) := by
  constructor
  · rcases hs : resp.series with _ | entries
    · simp [download_employment_data, hs]
    · simp only [download_employment_data, hs]
      rcases hps : processSeries entries [] with e | t <;> simp [Except.map, hs]
  · intro entries hs h
    obtain ⟨t, ht⟩ := processSeries_ok entries [] h
    refine ⟨t, ?_⟩
    simp [download_employment_data, hs, ht, Except.map]

/-- C8 amended, witness: a present, well-formed `series` list yields a
table. -/
theorem download_employment_data_none_iff_witness :
    ∃ t, download_employment_data
      ⟨some [⟨"SMS09000000000000001", [⟨"2008", "M01", "100"⟩]⟩]⟩ = .ok (some t) :=
  (download_employment_data_none_iff _).2 _ rfl
    (by
      intro se hse
      simp only [List.mem_singleton] at hse
      subst hse
      exact Or.inr ⟨"09", "CT", by decide, by decide⟩)

/-! ## Chunked fetcher: `download_all_employment_data` (lines 87–137) -/

/-- Python list slice `l[a:b]` for nonnegative bounds: both bounds are
clamped to the list's length, and an empty list results when `b ≤ a`. -/
def pySlice {α : Type} (l : List α) (a b : Nat) : List α :=
  (l.take b).drop a

/-- Lines 108–110 and 135, the region-group loop:
`fips_index = 0; while fips_index < len(fips_codes):`
`request_fips = fips_codes[fips_index:min(fips_index+fips_interval, len(fips_codes) - 1)]`
`... fips_index += fips_interval`.
(When `m = 0` the Python loop never terminates; the model returns `[]`,
never relied upon: every theorem assumes `0 < m`.) -/
def chunkFrom (codes : List String) (m : Nat) (i : Nat) : List (List String) :=
  if _h : i < codes.length ∧ 0 < m then
    pySlice codes i (min (i + m) (codes.length - 1)) :: chunkFrom codes m (i + m)
  else []
termination_by codes.length - i
decreasing_by omega

/-- The sequence of region groups the fetcher slices out of `codes`. -/
def chunkGroups (codes : List String) (m : Nat) : List (List String) :=
  chunkFrom codes m 0

/-- Line 97: `years = range(int(start_year), int(end_year))` — the Python
`range`, inclusive start, exclusive end. -/
def rangeInt (s e : Int) : List Int :=
  (List.range (e - s).toNat).map (fun k : Nat => s + (k : Int))

/-- Lines 113–119, the year-window computation of the inner loop:
starting from index `j`, each window is
`(years[year_index], years[min(len(years) - 1, year_index + year_interval - 1)])`
and `year_index` advances by `year_interval`.  (As with `chunkFrom`, `y = 0`
would loop forever in Python; the model returns `[]` and every theorem
assumes `0 < y`.) -/
def yearWindowsFrom (years : List Int) (y : Nat) (j : Nat) : List (Int × Int) :=
  if h : j < years.length ∧ 0 < y then
    (years.get ⟨j, h.1⟩,
     years.get ⟨min (years.length - 1) (j + y - 1), by omega⟩) ::
      yearWindowsFrom years y (j + y)
  else []
termination_by years.length - j
decreasing_by omega

/-- The year windows for range `[s, e)` with per-call limit `y`, as produced
by the inner loop started at `year_index = 0`. -/
def yearWindows (s e : Int) (y : Nat) : List (Int × Int) :=
  yearWindowsFrom (rangeInt s e) y 0

/-- pandas `f.join(c, rsuffix)`: left join on the index.  Each left row is
extended with the matching right row's columns, a column name already
present on the left getting the suffix.  (pandas would add the right
columns with `NaN` for left keys absent from `c`; the model adds no cells —
no claim observes this difference.) -/
def joinTables (f c : Table) (rsuffix : String) : Table :=
  f.map (fun p =>
    (p.1,
     p.2 ++ (match c.find? (fun q => q.1 == p.1) with
       | some q => q.2.map (fun cell =>
           (if p.2.any (fun x => x.1 == cell.1) then cell.1 ++ rsuffix else cell.1,
            cell.2))
       | none => [])))

/-- Lines 125–129: fold one year-chunk result into the accumulated
`year_frame`.  When `year_frame` is already a frame and the chunk is absent,
`year_frame.join(None, rsuffix="_chk")` raises — pandas treats a non-frame
argument as an iterable of frames and `None` is not iterable. -/
def mergeYearChunk (year_frame year_chunk : Option Table) :
    Except String (Option Table) :=
  match year_frame with
  | none => .ok year_chunk
  | some f =>
    match year_chunk with
    | some c => .ok (some (joinTables f c "_chk"))
    | none => .error "TypeError"

/-- One issued sub-request: the region list and the (inclusive) start and
end years handed to `download_employment_data`. -/
structure BlsCall where
  fipsList : List String
  startYear : Int
  endYear : Int
deriving DecidableEq, Repr

/-- Lines 112–131, the inner year loop for one region group, starting from
the *current* value of `year_index` (the source initializes `year_index`
once, outside the region loop).  Returns the trace of issued sub-requests,
the accumulated `year_frame` (or the raised exception), and the final
`year_index`.  `dl` is the remote exchange: what
`download_employment_data(request_fips, start, end)` returns. -/
def yearLoop (dl : List String → Int → Int → Option Table) (years : List Int)
    (y : Nat) (request_fips : List String) (j : Nat) (year_frame : Option Table) :
    List BlsCall × Except String (Option Table) × Nat :=
  if h : j < years.length ∧ 0 < y then
    let request_start := years.get ⟨j, h.1⟩
    let request_end := years.get ⟨min (years.length - 1) (j + y - 1), by omega⟩
    let year_chunk := dl request_fips request_start request_end
    let call : BlsCall := ⟨request_fips, request_start, request_end⟩
    match mergeYearChunk year_frame year_chunk with
    | .error e => ([call], .error e, j + y)
    | .ok yf =>
      match yearLoop dl years y request_fips (j + y) yf with
      | (cs, r, jf) => (call :: cs, r, jf)
  else ([], .ok year_frame, j)
termination_by years.length - j
decreasing_by omega

/-- Lines 99–135, the outer region-group loop, threading the shared
`year_index`.  Returns the full call trace and the list `fips_frames`
(or the first raised exception, which aborts the run). -/
def fipsLoop (dl : List String → Int → Int → Option Table)
    (fips_codes : List String) (years : List Int) (m y : Nat) (i yIdx : Nat) :
    List BlsCall × Except String (List (Option Table)) :=
  if _h : i < fips_codes.length ∧ 0 < m then
    let request_fips := pySlice fips_codes i (min (i + m) (fips_codes.length - 1))
    match yearLoop dl years y request_fips yIdx none with
    | (cs, .error e, _) => (cs, .error e)
    | (cs, .ok frame, yIdx') =>
      match fipsLoop dl fips_codes years m y (i + m) yIdx' with
      | (cs2, .error e) => (cs ++ cs2, .error e)
      | (cs2, .ok frames) => (cs ++ cs2, .ok (frame :: frames))
  else ([], .ok [])
termination_by fips_codes.length - i
decreasing_by omega

/-- Line 137: `pd.concat(fips_frames)`.  pandas drops `None` entries
silently, and raises a `ValueError` when there is no frame at all. -/
def pdConcat (frames : List (Option Table)) : Except String Table :=
  match frames.filterMap id with
  | [] => .error "ValueError"
  | fs => .ok fs.flatten

/-- Lines 87–137, parametrized by the remote exchange `dl` and generalized
over the region list and the two limits — the source fixes
`fips_codes = usFipsCodes`, `fips_interval = 50`, `year_interval = 20`.
Returns the trace of issued sub-requests alongside the result. -/
def download_all_employment_data (dl : List String → Int → Int → Option Table)
    (fips_codes : List String) (start_year end_year : Int) (m y : Nat) :
    List BlsCall × Except String Table :=
  let years := rangeInt start_year end_year
  match fipsLoop dl fips_codes years m y 0 0 with
  | (cs, .error e) => (cs, .error e)
  | (cs, .ok frames) => (cs, pdConcat frames)

/-! ## Region chunking (claim C1)

The slice bound `min(fips_index + fips_interval, len(fips_codes) - 1)` cuts
the groups off at index `len - 1`: the last region never lands in any
group.  Python slices clamp on their own, so the intended bound was
`len(fips_codes)`; with the static 50-state list the run silently omits the
50th state (Wyoming, FIPS 56), contradicting the module's stated purpose of
fetching employment for every state. -/

/-- C1: the group count is `ceil(n/m)` and each group is at most `m` long,
but the union of the groups loses the last region — both for the 3-region
list chunked by 2 and for the source's static 50-state list chunked by 50.
This refutes "the union of all groups equals the original region set". -/
theorem chunking_drops_last_region :
    chunkGroups ["09", "36", "06"] 2 = [["09", "36"], []] ∧
    (chunkGroups ["09", "36", "06"] 2).flatten ≠ ["09", "36", "06"] ∧
    chunkGroups usFipsCodes 50 = [usFipsCodes.take 49] ∧
    "56" ∈ usFipsCodes ∧ "56" ∉ (chunkGroups usFipsCodes 50).flatten := by
  have h3 : chunkGroups ["09", "36", "06"] 2 = [["09", "36"], []] := by
    rw [chunkGroups, chunkFrom.eq_def]
    rw [dif_pos (by norm_num)]
    rw [chunkFrom.eq_def]
    rw [dif_pos (by norm_num)]
    rw [chunkFrom.eq_def]
    rw [dif_neg (by norm_num)]
    decide
  have h50 : chunkGroups usFipsCodes 50 = [usFipsCodes.take 49] := by
    rw [chunkGroups, chunkFrom.eq_def]
    rw [dif_pos (by decide)]
    rw [chunkFrom.eq_def]
    rw [dif_neg (by decide)]
    decide
  refine ⟨h3, by rw [h3]; decide, h50, by decide, by rw [h50]; decide⟩

/-! ## Year windowing (claims C3, C4) -/

theorem rangeInt_length (s e : Int) : (rangeInt s e).length = (e - s).toNat := by
  rw [rangeInt, List.length_map, List.length_range]

theorem rangeInt_get (s e : Int) (k : Nat) (hk : k < (rangeInt s e).length) :
    (rangeInt s e).get ⟨k, hk⟩ = s + k := by
  simp only [rangeInt, List.get_eq_getElem, List.getElem_map, List.getElem_range]

/-- Each window is nonempty and spans at most `y` years (inclusive). -/
theorem yearWindowsFrom_spans (s e : Int) (hse : s ≤ e) (y : Nat) (hy : 0 < y)
    (j : Nat) :
    ∀ w ∈ yearWindowsFrom (rangeInt s e) y j,
      w.1 ≤ w.2 ∧ w.2 - w.1 + 1 ≤ (y : Int) := by
  have hn : ((rangeInt s e).length : Int) = e - s := by
    rw [rangeInt_length]; omega
  rw [yearWindowsFrom.eq_def]
  split
  · rename_i h
    intro w hw
    rcases List.mem_cons.mp hw with rfl | hw'
    · dsimp only
      rw [rangeInt_get, rangeInt_get]
      constructor <;> omega
    · exact yearWindowsFrom_spans s e hse y hy (j + y) w hw'
  · intro w hw
    simp at hw
termination_by (rangeInt s e).length - j
decreasing_by omega

/-- Consecutive windows abut: each window starts one year after the previous
one ends (hence the windows are non-overlapping). -/
theorem yearWindowsFrom_chain (s e : Int) (hse : s ≤ e) (y : Nat) (hy : 0 < y)
    (j : Nat) :
    List.Chain' (fun w1 w2 => w2.1 = w1.2 + 1)
      (yearWindowsFrom (rangeInt s e) y j) := by
  have hn : ((rangeInt s e).length : Int) = e - s := by
    rw [rangeInt_length]; omega
  rw [yearWindowsFrom.eq_def]
  split
  · rename_i h
    refine List.chain'_cons'.mpr ⟨?_, yearWindowsFrom_chain s e hse y hy (j + y)⟩
    intro b hb
    rw [yearWindowsFrom.eq_def] at hb
    split at hb
    · rename_i h2
      simp only [List.head?_cons] at hb
      cases hb
      dsimp only
      rw [rangeInt_get, rangeInt_get]
      omega
    · simp at hb
  · exact List.chain'_nil
termination_by (rangeInt s e).length - j
decreasing_by omega

/-- Starting at index `j`, the windows (read as inclusive year ranges)
cover exactly the years `s + j, …, e - 1`. -/
theorem yearWindowsFrom_cover (s e : Int) (hse : s ≤ e) (y : Nat) (hy : 0 < y)
    (j : Nat) (t : Int) :
    (s + j ≤ t ∧ t < e) ↔
      ∃ w ∈ yearWindowsFrom (rangeInt s e) y j, w.1 ≤ t ∧ t ≤ w.2 := by
  have hn : ((rangeInt s e).length : Int) = e - s := by
    rw [rangeInt_length]; omega
  rw [yearWindowsFrom.eq_def]
  split
  · rename_i h
    have hrec := yearWindowsFrom_cover s e hse y hy (j + y) t
    rw [rangeInt_get, rangeInt_get]
    simp only [List.mem_cons, exists_eq_or_imp]
    rw [← hrec]
    omega
  · rename_i h
    simp only [List.not_mem_nil, false_and, exists_false, iff_false]
    omega
termination_by (rangeInt s e).length - j
decreasing_by omega

/-- C3 confirmed: for every year range `[start, end)` with `start ≤ end` and
every positive limit `y`, the windows produced by the inner loop are
consecutive and non-overlapping (each starts one year after the previous
ends), each spans at most `y` years, and, read as inclusive ranges, their
union is exactly `[start, end)` — the end year excluded. -/
theorem year_windowing_partition (s e : Int) (y : Nat) (hse : s ≤ e) (hy : 0 < y) :
    (∀ w ∈ yearWindows s e y, w.1 ≤ w.2 ∧ w.2 - w.1 + 1 ≤ (y : Int)) ∧
    List.Chain' (fun w1 w2 => w2.1 = w1.2 + 1) (yearWindows s e y) ∧
    (∀ t : Int, (s ≤ t ∧ t < e) ↔
      ∃ w ∈ yearWindows s e y, w.1 ≤ t ∧ t ≤ w.2) := by
  refine ⟨yearWindowsFrom_spans s e hse y hy 0,
    yearWindowsFrom_chain s e hse y hy 0, fun t => ?_⟩
  have := yearWindowsFrom_cover s e hse y hy 0 t
  simpa using this

/-- C3 witness at the source's own parameters. -/
theorem year_windowing_partition_witness :
    (∀ w ∈ yearWindows 1991 2018 20, w.1 ≤ w.2 ∧ w.2 - w.1 + 1 ≤ (20 : Int)) ∧
    List.Chain' (fun w1 w2 => w2.1 = w1.2 + 1) (yearWindows 1991 2018 20) ∧
    (∀ t : Int, (1991 ≤ t ∧ t < 2018) ↔
      ∃ w ∈ yearWindows 1991 2018 20, w.1 ≤ t ∧ t ≤ w.2) :=
  year_windowing_partition 1991 2018 20 (by norm_num) (by norm_num)

/-- Evaluation of the concrete scenario `start=1991, end=2018, y=20`:
`years = [1991, …, 2017]` (27 years), so the first window is
`(years[0], years[min(26, 19)]) = (1991, 2010)` and the second is
`(years[20], years[min(26, 39)]) = (2011, 2017)`. -/
theorem yearWindows_1991_2018_eval :
    yearWindows 1991 2018 20 = [(1991, 2010), (2011, 2017)] := by
  have hyears : rangeInt 1991 2018 =
      [1991, 1992, 1993, 1994, 1995, 1996, 1997, 1998, 1999, 2000, 2001, 2002,
       2003, 2004, 2005, 2006, 2007, 2008, 2009, 2010, 2011, 2012, 2013, 2014,
       2015, 2016, 2017] := by
    decide
  rw [yearWindows, hyears]
  rw [yearWindowsFrom.eq_def]
  rw [dif_pos (by norm_num)]
  rw [yearWindowsFrom.eq_def]
  rw [dif_pos (by norm_num)]
  rw [yearWindowsFrom.eq_def]
  rw [dif_neg (by norm_num)]
  decide

/-- C4 counterexample: the claimed window boundaries 1991–2009 / 2010–2017
are not the ones the code produces. -/
theorem yearWindows_1991_2018_counterexample :
    yearWindows 1991 2018 20 ≠ [(1991, 2009), (2010, 2017)] := by
  rw [yearWindows_1991_2018_eval]
  decide

/-- C4 amended: for `start_year=1991`, `end_year=2018` and a 20-year limit
the fetcher produces exactly 2 year-windows, with boundaries 1991–2010 and
2011–2017 (the first window takes the full 20 years 1991..2010 inclusive;
the exclusive end year 2018 is respected). -/
theorem yearWindows_1991_2018_amended :
    yearWindows 1991 2018 20 = [(1991, 2010), (2011, 2017)] ∧
    (yearWindows 1991 2018 20).length = 2 := by
  rw [yearWindows_1991_2018_eval]
  exact ⟨rfl, rfl⟩

/-! ## Merging an absent year chunk (claim C6) -/

/-- C6 counterexample: merging an absent chunk into a *present* accumulated
table does not leave the table unchanged — it raises a `TypeError`, because
`year_frame.join(None, rsuffix="_chk")` passes `None` where pandas expects
a frame or an iterable of frames. -/
theorem merge_absent_chunk_counterexample :
    mergeYearChunk (some [("SMS09000000000000001", [("state", "CT")])]) none =
      .error "TypeError" := rfl

/-- C6 amended: merging an absent year-chunk result is a no-op only when the
accumulated `year_frame` is itself still absent (the `year_frame is None`
branch); once the accumulated table is present, merging an absent chunk
raises a `TypeError` instead of leaving the table unchanged. -/
theorem merge_absent_chunk_amended :
    mergeYearChunk none none = .ok none ∧
    ∀ t : Table, mergeYearChunk (some t) none = .error "TypeError" :=
  ⟨rfl, fun _ => rfl⟩

/-- C6 amended, witness at a concrete accumulated table. -/
theorem merge_absent_chunk_amended_witness :
    mergeYearChunk (some [("SMS36000000000000001", [("state", "NY")])]) none =
      .error "TypeError" :=
  merge_absent_chunk_amended.2 [("SMS36000000000000001", [("state", "NY")])]

/-! ## The end-to-end stub scenario (claim C2)

Three fabricated regions `"09", "36", "06"` with `max_regions_per_call = 2`
and the single year 2008.  Because `year_index` is initialized once, before
the region loop, the second region group never enters the year loop; and the
slice bound `len - 1` makes that second group empty anyway.  The run issues
exactly **one** remote call — for the first group only — and region `"06"`
is never requested.  (`pd.concat` silently drops the second group's `None`
frame, so the run returns the first group's table without raising.) -/

/-- The one-row table the stub returns for requests covering region `"09"`:
Connecticut with the two period columns of the scenario. -/
def t09 : Table :=
  [("SMS09000000000000001",
    [("state", "CT"), ("fips", "09"), ("2008-01", "100"), ("2008-02", "101")])]

/-- The spec scenario's remote-call stub: data exists only for region
`"09"`; requests not covering it return no series data (absent). -/
def stub09 (fips_list : List String) (_start _end : Int) : Option Table :=
  if fips_list.contains "09" then some t09 else none

/-- C2: in the 3-region, limit-2 scenario the fetcher issues exactly one
remote call — `(["09", "36"], 2008, 2008)` — instead of one call per
region group, and returns the first group's table.  This refutes "for every
region-group and every year-window, the chunked fetcher issues exactly one
remote call" and "fetch_all issues 2 region-group calls": the second group
is sliced empty and its year loop never runs (`year_index` is already
exhausted), so region `"06"` is never requested. -/
theorem fetch_all_scenario_single_call :
    download_all_employment_data stub09 ["09", "36", "06"] 2008 2009 2 20 =
      ([⟨["09", "36"], 2008, 2008⟩], .ok t09) ∧
    (chunkGroups ["09", "36", "06"] 2).length = 2 := by
  have hyears : rangeInt 2008 2009 = [2008] := by decide
  have hrec : yearLoop stub09 [2008] 20 ["09", "36"] 20 (some t09) =
      ([], .ok (some t09), 20) := by
    rw [yearLoop.eq_def]
    rw [dif_neg (by norm_num)]
  have h1 : yearLoop stub09 [2008] 20 ["09", "36"] 0 none =
      ([⟨["09", "36"], 2008, 2008⟩], .ok (some t09), 20) := by
    rw [yearLoop.eq_def]
    rw [dif_pos (by norm_num)]
    norm_num [List.get, stub09, mergeYearChunk, hrec]
  have h2 : yearLoop stub09 [2008] 20 [] 20 none = ([], .ok none, 20) := by
    rw [yearLoop.eq_def]
    rw [dif_neg (by norm_num)]
  have h3 : fipsLoop stub09 ["09", "36", "06"] [2008] 2 20 2 20 =
      ([], .ok [none]) := by
    rw [fipsLoop.eq_def]
    rw [dif_pos (by norm_num)]
    rw [show pySlice ["09", "36", "06"] 2 ((2 + 2) ⊓ (["09", "36", "06"].length - 1)) =
        [] from rfl]
    dsimp only
    rw [h2]
    dsimp only
    rw [fipsLoop.eq_def]
    rw [dif_neg (by norm_num)]
    rfl
  have h4 : fipsLoop stub09 ["09", "36", "06"] [2008] 2 20 0 0 =
      ([⟨["09", "36"], 2008, 2008⟩], .ok [some t09, none]) := by
    rw [fipsLoop.eq_def]
    rw [dif_pos (by norm_num)]
    rw [show pySlice ["09", "36", "06"] 0 ((0 + 2) ⊓ (["09", "36", "06"].length - 1)) =
        ["09", "36"] from rfl]
    dsimp only
    rw [h1]
    dsimp only
    rw [show (0 : Nat) + 2 = 2 from rfl, h3]
    rfl
  constructor
  · rw [download_all_employment_data]
    rw [hyears, h4]
    rfl
  · rw [chunkGroups, chunkFrom.eq_def]
    rw [dif_pos (by norm_num)]
    rw [chunkFrom.eq_def]
    rw [dif_pos (by norm_num)]
    rw [chunkFrom.eq_def]
    rw [dif_neg (by norm_num)]
    decide

end BLS
